import Mathlib

/-!
Verification of the session-lifecycle policy of the game-improvement backend.

The development shallowly embeds the TypeScript functions `improveGame`
(gameImprover) and the metadata-scaffolding step of `generateGame`
(gameGenerator).  Timestamps (`Date.now()`, ISO strings) are modelled as
rational milliseconds since epoch; USD costs are rationals; JavaScript
truthiness of optional strings (undefined and "" are falsy) is modelled by
`isPresent`, and truthiness of optional numeric usage fields (undefined and 0
are falsy) is modelled by explicit `≠ 0` tests.
-/

/-- Token usage record carried by streamed SDK messages (interface `TokenUsage`). -/
structure TokenUsage where
  input_tokens : Nat
  output_tokens : Nat
  cache_creation_input_tokens : Option Nat
  cache_read_input_tokens : Option Nat
  deriving DecidableEq, Repr

/-- Per-game metadata record persisted as `metadata.json` (interface `GameMetadata`).
`lastImprovementAt` is modelled as rational milliseconds since epoch (the code
stores an ISO timestamp and reads it back with `new Date(...).getTime()`). -/
structure GameMetadata where
  id : String
  name : String
  description : String
  icon : String
  createdAt : String
  claudeSessionId : Option String
  hasActiveSession : Bool
  improvementCount : Nat
  lastImprovementAt : Option ℚ
  contextSize : Option Nat
  lastImprovementCost : Option ℚ
  sessionImprovementCount : Option Nat
  deriving DecidableEq, Repr

/-- JavaScript truthiness of an optional string: `undefined` and `""` are falsy. -/
def isPresent : Option String → Bool
  | none => false
  | some s => s ≠ ""

/-- Minutes elapsed since the last improvement:
`(Date.now() - new Date(metadata.lastImprovementAt).getTime()) / 1000 / 60`,
or `null` (here `none`) when `lastImprovementAt` is absent. -/
def timeSinceLastImprovement (now : ℚ) (m : GameMetadata) : Option ℚ :=
  match m.lastImprovementAt with
  | some t => some ((now - t) / 1000 / 60)
  | none => none

/-- JavaScript comparison `timeSinceLastImprovement > 5`: `null > 5` is `false`. -/
def exceedsFiveMinutes : Option ℚ → Bool
  | some t => decide (5 < t)
  | none => false

/-- The decision `shouldReset` of `improveGame`: reset (FRESH) when any of the
six OR'd conditions holds, otherwise resume.  The defaulted reads
`metadata.contextSize || 0`, `metadata.sessionImprovementCount || 0` and
`metadata.lastImprovementCost || 0` are modelled with `Option.getD 0`. -/
def shouldReset (now : ℚ) (m : GameMetadata) : Bool :=
  !(isPresent m.claudeSessionId)
    || (timeSinceLastImprovement now m).isNone
    || exceedsFiveMinutes (timeSinceLastImprovement now m)
    || decide (5 ≤ m.sessionImprovementCount.getD 0)
    || decide (30000 < m.contextSize.getD 0)
    || decide ((0.20 : ℚ) < m.lastImprovementCost.getD 0)

/-- Reason codes for a FRESH decision, one per `console.log` branch of the
`if (shouldReset)` block of `improveGame`. -/
inductive ResetReason where
  | firstImprovement
  | cacheExpired
  | sessionImprovementsReached
  | contextTooLarge
  | costTooHigh
  deriving DecidableEq, Repr

/-- The static text of the log line printed for each reason (for reasons whose
log line interpolates numbers, the constant tail of the line). -/
def reasonLogText : ResetReason → String
  | .firstImprovement => "First improvement or no previous timestamp"
  | .cacheExpired => "minutes since last improvement (cache expired)"
  | .sessionImprovementsReached => "improvements in session (context too large)"
  | .contextTooLarge => "tokens exceeds 30k threshold"
  | .costTooHigh => "exceeds $0.20"

/-- The reason reported for a FRESH decision: the `if / else if` chain inside
`if (shouldReset)` in `improveGame`.  Note the chain has no branch for the
missing-session-token condition, so it can fall through to `none`. -/
def resetReason (now : ℚ) (m : GameMetadata) : Option ResetReason :=
  if shouldReset now m then
    if (timeSinceLastImprovement now m).isNone then some .firstImprovement
    else if exceedsFiveMinutes (timeSinceLastImprovement now m) then some .cacheExpired
    else if 5 ≤ m.sessionImprovementCount.getD 0 then some .sessionImprovementsReached
    else if 30000 < m.contextSize.getD 0 then some .contextTooLarge
    else if (0.20 : ℚ) < m.lastImprovementCost.getD 0 then some .costTooHigh
    else none
  else none

/-- The in-place mutation performed right after the decision, before the agent
is invoked: on FRESH, `metadata.claudeSessionId = undefined` and
`metadata.sessionImprovementCount = 0`; on RESUME nothing is touched. -/
def applyDecisionMutation (now : ℚ) (m : GameMetadata) : GameMetadata :=
  if shouldReset now m then
    { m with claudeSessionId := none, sessionImprovementCount := some 0 }
  else m

/-- A streamed SDK message: an assistant step (whose nested `message.usage` may
be missing), a final result carrying `total_cost_usd`, or a system-init
message.  Any message may carry a `session_id`. -/
inductive SDKMessage where
  | assistant (usage : Option TokenUsage) (session_id : Option String)
  | result (subtype : String) (total_cost_usd : ℚ) (usage : TokenUsage) (session_id : Option String)
  | systemInit (session_id : Option String)
  deriving DecidableEq, Repr

/-- The `session_id` field of a message, when the message carries one. -/
def SDKMessage.sessionIdField : SDKMessage → Option String
  | .assistant _ sid => sid
  | .result _ _ _ sid => sid
  | .systemInit sid => sid

/-- The capture `if ('session_id' in message && message.session_id) sessionId = message.session_id`
applied to one message (truthiness: the empty string is not captured). -/
def captureSessionId (acc : Option String) (msg : SDKMessage) : Option String :=
  match msg.sessionIdField with
  | some s => if s ≠ "" then some s else acc
  | none => acc

/-- The cache-read signal of a usage record, as the code observes it:
`if (usage.cache_read_input_tokens)` is taken only when the field is present
and nonzero. -/
def usageCacheSignal (usage : TokenUsage) : Option Nat :=
  match usage.cache_read_input_tokens with
  | some v => if v ≠ 0 then some v else none
  | none => none

/-- The opportunistic update `metadata.contextSize = usage.cache_read_input_tokens`
performed when an assistant step carries a (truthy) cache-read signal. -/
def updateContextSize (md : GameMetadata) (usage : TokenUsage) : GameMetadata :=
  match usageCacheSignal usage with
  | some v => { md with contextSize := some v }
  | none => md

/-- The accumulation of `totalTokenUsage` over one assistant step (the optional
cache fields are added only when truthy, mirroring the `if` guards). -/
def accumulateUsage (acc usage : TokenUsage) : TokenUsage :=
  let acc := { acc with
    input_tokens := acc.input_tokens + usage.input_tokens,
    output_tokens := acc.output_tokens + usage.output_tokens }
  let acc := match usage.cache_creation_input_tokens with
    | some v =>
        if v ≠ 0 then
          { acc with cache_creation_input_tokens := some (acc.cache_creation_input_tokens.getD 0 + v) }
        else acc
    | none => acc
  match usage.cache_read_input_tokens with
  | some v =>
      if v ≠ 0 then
        { acc with cache_read_input_tokens := some (acc.cache_read_input_tokens.getD 0 + v) }
      else acc
  | none => acc

/-- The mutable state threaded through the `for await` loop of `improveGame`. -/
structure StreamState where
  metadata : GameMetadata
  sessionId : Option String
  totalCostUSD : ℚ
  totalTokenUsage : TokenUsage
  stepCount : Nat
  deriving DecidableEq, Repr

/-- The loop state before the first streamed message. -/
def initialStreamState (m : GameMetadata) : StreamState :=
  { metadata := m
    sessionId := none
    totalCostUSD := 0
    totalTokenUsage :=
      { input_tokens := 0
        output_tokens := 0
        cache_creation_input_tokens := some 0
        cache_read_input_tokens := some 0 }
    stepCount := 0 }

/-- One iteration of the `for await (const message of query(...))` loop body:
the assistant-usage tracking block, the result-message block, and the
session-id capture. -/
def processMessage (st : StreamState) (msg : SDKMessage) : StreamState :=
  match msg with
  | .assistant (some usage) _ =>
      { st with
        metadata := updateContextSize st.metadata usage
        totalTokenUsage := accumulateUsage st.totalTokenUsage usage
        stepCount := st.stepCount + 1
        sessionId := captureSessionId st.sessionId msg }
  | .result _ cost _ _ =>
      { st with totalCostUSD := cost, sessionId := captureSessionId st.sessionId msg }
  | .systemInit _ =>
      { st with sessionId := captureSessionId st.sessionId msg }
  | .assistant none _ =>
      { st with sessionId := captureSessionId st.sessionId msg }

/-- The loop state after the whole stream, starting from the post-decision
in-memory metadata. -/
def streamFinalState (now : ℚ) (m : GameMetadata) (msgs : List SDKMessage) : StreamState :=
  msgs.foldl processMessage (initialStreamState (applyDecisionMutation now m))

/-- The session token the invocation provided, if any: the last truthy
`session_id` seen on any streamed message (`none` when none was provided). -/
def issuedSessionToken (msgs : List SDKMessage) : Option String :=
  msgs.foldl captureSessionId none

/-- One step of tracking the most recent cache-read signal. -/
def cacheStep (acc : Option Nat) (msg : SDKMessage) : Option Nat :=
  match msg with
  | .assistant (some usage) _ =>
      match usageCacheSignal usage with
      | some v => some v
      | none => acc
  | _ => acc

/-- The last cache-read signal observed across the stream, if any. -/
def lastCacheRead (msgs : List SDKMessage) : Option Nat :=
  msgs.foldl cacheStep none

/-- One step of tracking `totalCostUSD`, overwritten by each result message. -/
def costStep (acc : ℚ) (msg : SDKMessage) : ℚ :=
  match msg with
  | .result _ cost _ _ => cost
  | _ => acc

/-- The `total_cost_usd` of the invocation: `totalCostUSD` starts at 0 and is
overwritten by each result message. -/
def totalCostReported (msgs : List SDKMessage) : ℚ :=
  msgs.foldl costStep 0

/-- Post-invocation reconciliation (the metadata-update block of `improveGame`):
bump `improvementCount`, set `hasActiveSession`, `lastImprovementAt`, overwrite
`lastImprovementCost`, then update the session tracking depending on
`shouldReset || !metadata.claudeSessionId`. -/
def reconcileMetadata (completedAt : ℚ) (shouldResetFlag : Bool) (sessionId : Option String)
    (totalCostUSD : ℚ) (m : GameMetadata) : GameMetadata :=
  let m := { m with
    improvementCount := m.improvementCount + 1
    hasActiveSession := true
    lastImprovementAt := some completedAt
    lastImprovementCost := some totalCostUSD }
  if shouldResetFlag || !(isPresent m.claudeSessionId) then
    let m := { m with sessionImprovementCount := some 1 }
    if isPresent sessionId then { m with claudeSessionId := sessionId } else m
  else
    { m with sessionImprovementCount := some (m.sessionImprovementCount.getD 0 + 1) }

/-- The metadata value written to `metadata.json` after a completed invocation:
decision, pre-invocation mutation, stream accumulation, then reconciliation. -/
def reconciledMetadata (now completedAt : ℚ) (m : GameMetadata) (msgs : List SDKMessage) :
    GameMetadata :=
  let st := streamFinalState now m msgs
  reconcileMetadata completedAt (shouldReset now m) st.sessionId st.totalCostUSD st.metadata

/-- The `{ success, message }` value returned by `improveGame`. -/
structure ImproveResult where
  success : Bool
  message : String
  deriving DecidableEq, Repr

/-- Outcome of the agent invocation: the stream either completes with the given
messages, or throws after yielding a prefix of them. -/
inductive InvocationOutcome where
  | completes (msgs : List SDKMessage)
  | throwsAfter (msgs : List SDKMessage) (errorMessage : String)
  deriving DecidableEq, Repr

/-- Outcome of the post-edit `npx tsc` check: `execAsync` returns
`(stdout, stderr)` or throws with the combined error output. -/
inductive TscOutcome where
  | passes (stdout stderr : String)
  | fails (errorOutput : String)
  deriving DecidableEq, Repr

/-- The success message `Successfully applied improvement to ${metadata.name}`. -/
def successMessage (m : GameMetadata) : String :=
  "Successfully applied improvement to " ++ m.name

/-- The warning message returned when the TypeScript check hard-errors. -/
def tscErrorMessage (m : GameMetadata) : String :=
  "Improvement applied to " ++ m.name ++
    " but with TypeScript errors. The game may not work correctly until these are fixed."

/-- The soft-failure message `Failed to improve game: ...` built in the catch block. -/
def failureMessage (errorMessage : String) : String :=
  "Failed to improve game: " ++ errorMessage

/-- Externally visible steps of one `improveGame` request, in program order. -/
inductive TraceStep where
  | invokeAgent (m : GameMetadata)
  | writeMetadata (m : GameMetadata)
  | runTscCheck
  | ret (r : ImproveResult)
  deriving DecidableEq, Repr

/-- The trace of one `improveGame` request on a game whose metadata loaded as
`m`.  If the stream throws, the catch block returns `success:false` and the
metadata write is never reached; otherwise the reconciled record is written and
then the TypeScript check runs, its hard error downgraded to a warning inside a
still-successful result. -/
def improveGameTrace (now completedAt : ℚ) (m : GameMetadata) (inv : InvocationOutcome)
    (tsc : TscOutcome) : List TraceStep :=
  let m1 := applyDecisionMutation now m
  match inv with
  | .throwsAfter _ errorMessage =>
      [.invokeAgent m1, .ret { success := false, message := failureMessage errorMessage }]
  | .completes msgs =>
      let m2 := reconciledMetadata now completedAt m msgs
      match tsc with
      | .fails _ =>
          [.invokeAgent m1, .writeMetadata m2, .runTscCheck,
            .ret { success := true, message := tscErrorMessage m2 }]
      | .passes _ _ =>
          [.invokeAgent m1, .writeMetadata m2, .runTscCheck,
            .ret { success := true, message := successMessage m2 }]

/-- The on-disk metadata after a trace: the last value written, else the
starting record. -/
def diskAfter (init : GameMetadata) (tr : List TraceStep) : GameMetadata :=
  tr.foldl
    (fun d step =>
      match step with
      | .writeMetadata m => m
      | _ => d)
    init

/-- The result `improveGame` returned, read off the trace. -/
def resultOf (tr : List TraceStep) : Option ImproveResult :=
  tr.foldl
    (fun r step =>
      match step with
      | .ret res => some res
      | _ => r)
    none

/-- The metadata record written by `generateGame` at scaffolding time: the
session fields beyond `claudeSessionId`/`hasActiveSession` are omitted
entirely. -/
def scaffoldMetadata (gameId gameName prompt createdAt : String) (sessionId : Option String) :
    GameMetadata :=
  { id := gameId
    name := gameName
    description := "AI-generated 3D game: " ++ (prompt.take 100) ++ "..."
    icon := "🎯"
    createdAt := createdAt
    claudeSessionId := sessionId
    hasActiveSession := isPresent sessionId
    improvementCount := 0
    lastImprovementAt := none
    contextSize := none
    lastImprovementCost := none
    sessionImprovementCount := none }

/-- Metadata records reachable through the subsystem: scaffolding followed by
any sequence of improvement requests (each with arbitrary clock values,
invocation outcome and TypeScript-check outcome). -/
inductive ReachableMetadata : GameMetadata → Prop where
  | scaffold (gameId gameName prompt createdAt : String) (sessionId : Option String) :
      ReachableMetadata (scaffoldMetadata gameId gameName prompt createdAt sessionId)
  | improve (m : GameMetadata) (now completedAt : ℚ) (inv : InvocationOutcome)
      (tsc : TscOutcome) :
      ReachableMetadata m →
      ReachableMetadata (diskAfter m (improveGameTrace now completedAt m inv tsc))

/-- A freshly scaffolded record with no session token (Scenario A shape). -/
def scaffoldExample : GameMetadata :=
  scaffoldMetadata "game_1" "Arena" "make an arena game" "2025-08-13T00:00:00Z" none

/-- A record inside a healthy resumable session (Scenario B shape): token
present, three minutes will have elapsed at `now = 180000`, two improvements in
the session, context 5000 tokens, last cost $0.05. -/
def sampleMeta : GameMetadata :=
  { id := "game_2"
    name := "Maze"
    description := "a maze game"
    icon := "🎯"
    createdAt := "2025-08-13T00:00:00Z"
    claudeSessionId := some "sess-abc"
    hasActiveSession := true
    improvementCount := 2
    lastImprovementAt := some 0
    contextSize := some 5000
    lastImprovementCost := some (5 / 100 : ℚ)
    sessionImprovementCount := some 2 }

/-- A record with no session token but a recent timestamp and every numeric
signal under its threshold: the decision is FRESH solely because of the missing
token. -/
def tokenlessRecentMeta : GameMetadata :=
  { id := "game_3"
    name := "Pong"
    description := "a pong game"
    icon := "🎯"
    createdAt := "2025-08-13T00:00:00Z"
    claudeSessionId := none
    hasActiveSession := true
    improvementCount := 3
    lastImprovementAt := some 0
    contextSize := some 100
    lastImprovementCost := some (1 / 100 : ℚ)
    sessionImprovementCount := some 1 }

/-- The on-disk record after one completed improvement of `scaffoldExample` in
which the invocation issued no session token. -/
def tokenlessImprovedMeta : GameMetadata :=
  diskAfter scaffoldExample
    (improveGameTrace 0 0 scaffoldExample (.completes []) (.passes "" ""))

/-- Unfolded characterisation of a FRESH decision as the disjunction of the six
conditions of the decision table. -/
theorem shouldReset_eq_true_iff (now : ℚ) (m : GameMetadata) :
    shouldReset now m = true ↔
      (isPresent m.claudeSessionId = false
        ∨ m.lastImprovementAt = none
        ∨ (∃ t, m.lastImprovementAt = some t ∧ 5 < (now - t) / 1000 / 60)
        ∨ 5 ≤ m.sessionImprovementCount.getD 0
        ∨ 30000 < m.contextSize.getD 0
        ∨ (0.20 : ℚ) < m.lastImprovementCost.getD 0) := by
  unfold shouldReset timeSinceLastImprovement
  cases h : m.lastImprovementAt with
  | none => simp [exceedsFiveMinutes, h]
  | some t => simp [exceedsFiveMinutes, h, or_assoc]

/-- On a false decision bit, all six conditions fail. -/
theorem shouldReset_eq_false_conditions (now : ℚ) (m : GameMetadata)
    (h : shouldReset now m = false) :
    isPresent m.claudeSessionId = true ∧ m.lastImprovementAt ≠ none ∧
      (∀ t, m.lastImprovementAt = some t → (now - t) / 1000 / 60 ≤ 5) ∧
      m.sessionImprovementCount.getD 0 < 5 ∧ m.contextSize.getD 0 ≤ 30000 ∧
      m.lastImprovementCost.getD 0 ≤ (0.20 : ℚ) := by
  have h' : ¬(shouldReset now m = true) := by simp [h]
  rw [shouldReset_eq_true_iff] at h'
  push_neg at h'
  obtain ⟨h1, h2, h3, h4, h5, h6⟩ := h'
  refine ⟨by simpa using h1, h2, ?_, by linarith, by omega, h6⟩
  intro t ht
  have := h3 t ht
  linarith

/-- The opportunistic context-size update touches no other metadata field. -/
theorem updateContextSize_eq (md : GameMetadata) (usage : TokenUsage) :
    updateContextSize md usage
      = { md with contextSize := (updateContextSize md usage).contextSize } := by
  unfold updateContextSize
  cases h : usageCacheSignal usage <;> simp

/-- One loop iteration touches no metadata field other than `contextSize`. -/
theorem processMessage_metadata_eq (st : StreamState) (msg : SDKMessage) :
    (processMessage st msg).metadata
      = { st.metadata with contextSize := (processMessage st msg).metadata.contextSize } := by
  cases msg with
  | assistant usage sid =>
      cases usage with
      | some u => simpa [processMessage] using updateContextSize_eq st.metadata u
      | none => simp [processMessage]
  | result subtype cost u sid => simp [processMessage]
  | systemInit sid => simp [processMessage]

/-- The whole stream touches no metadata field other than `contextSize`. -/
theorem foldl_processMessage_metadata_eq (msgs : List SDKMessage) :
    ∀ st : StreamState,
      (msgs.foldl processMessage st).metadata
        = { st.metadata with contextSize := (msgs.foldl processMessage st).metadata.contextSize } := by
  induction msgs with
  | nil => intro st; simp
  | cons msg rest ih =>
      intro st
      rw [List.foldl_cons, ih (processMessage st msg)]
      rw [processMessage_metadata_eq st msg]

/-- One loop iteration updates the captured session id exactly by `captureSessionId`. -/
theorem processMessage_sessionId (st : StreamState) (msg : SDKMessage) :
    (processMessage st msg).sessionId = captureSessionId st.sessionId msg := by
  cases msg with
  | assistant usage sid => cases usage <;> simp [processMessage]
  | result subtype cost u sid => simp [processMessage]
  | systemInit sid => simp [processMessage]

/-- The session id after the whole stream is the fold of the capture step. -/
theorem foldl_processMessage_sessionId (msgs : List SDKMessage) :
    ∀ st : StreamState,
      (msgs.foldl processMessage st).sessionId = msgs.foldl captureSessionId st.sessionId := by
  induction msgs with
  | nil => intro st; rfl
  | cons msg rest ih =>
      intro st
      rw [List.foldl_cons, List.foldl_cons, ih (processMessage st msg),
        processMessage_sessionId st msg]

/-- The session id captured by `improveGame` is the issued token of the stream. -/
theorem streamFinalState_sessionId (now : ℚ) (m : GameMetadata) (msgs : List SDKMessage) :
    (streamFinalState now m msgs).sessionId = issuedSessionToken msgs := by
  unfold streamFinalState issuedSessionToken
  rw [foldl_processMessage_sessionId]
  rfl

/-- One loop iteration updates `totalCostUSD` exactly by `costStep`. -/
theorem processMessage_totalCostUSD (st : StreamState) (msg : SDKMessage) :
    (processMessage st msg).totalCostUSD = costStep st.totalCostUSD msg := by
  cases msg with
  | assistant usage sid => cases usage <;> simp [processMessage, costStep]
  | result subtype cost u sid => simp [processMessage, costStep]
  | systemInit sid => simp [processMessage, costStep]

/-- The cost after the whole stream is the fold of the cost step. -/
theorem foldl_processMessage_totalCostUSD (msgs : List SDKMessage) :
    ∀ st : StreamState,
      (msgs.foldl processMessage st).totalCostUSD = msgs.foldl costStep st.totalCostUSD := by
  induction msgs with
  | nil => intro st; rfl
  | cons msg rest ih =>
      intro st
      rw [List.foldl_cons, List.foldl_cons, ih (processMessage st msg),
        processMessage_totalCostUSD st msg]

/-- The cost `improveGame` ends up with is the total reported by the stream. -/
theorem streamFinalState_totalCostUSD (now : ℚ) (m : GameMetadata) (msgs : List SDKMessage) :
    (streamFinalState now m msgs).totalCostUSD = totalCostReported msgs := by
  unfold streamFinalState totalCostReported
  rw [foldl_processMessage_totalCostUSD]
  rfl

/-- One loop iteration updates `contextSize` exactly by `cacheStep`. -/
theorem processMessage_contextSize (st : StreamState) (msg : SDKMessage) :
    (processMessage st msg).metadata.contextSize = cacheStep st.metadata.contextSize msg := by
  cases msg with
  | assistant usage sid =>
      cases usage with
      | some u =>
          show (updateContextSize st.metadata u).contextSize = _
          unfold updateContextSize cacheStep
          cases h : usageCacheSignal u <;> simp [h]
      | none => simp [processMessage, cacheStep]
  | result subtype cost u sid => simp [processMessage, cacheStep]
  | systemInit sid => simp [processMessage, cacheStep]

/-- The context size after the whole stream is the fold of the cache step. -/
theorem foldl_processMessage_contextSize (msgs : List SDKMessage) :
    ∀ st : StreamState,
      (msgs.foldl processMessage st).metadata.contextSize
        = msgs.foldl cacheStep st.metadata.contextSize := by
  induction msgs with
  | nil => intro st; rfl
  | cons msg rest ih =>
      intro st
      rw [List.foldl_cons, List.foldl_cons, ih (processMessage st msg),
        processMessage_contextSize st msg]

/-- Folding the cache step from an arbitrary start yields the last signal when
one exists and the start value otherwise. -/
theorem foldl_cacheStep_from (msgs : List SDKMessage) :
    ∀ c : Option Nat,
      msgs.foldl cacheStep c
        = match lastCacheRead msgs with
          | some v => some v
          | none => c := by
  induction msgs with
  | nil => intro c; rfl
  | cons msg rest ih =>
      intro c
      unfold lastCacheRead
      rw [List.foldl_cons, List.foldl_cons, ih (cacheStep c msg), ih (cacheStep none msg)]
      have hstep : ∀ c' : Option Nat,
          cacheStep c' msg
            = match cacheStep none msg with
              | some v => some v
              | none => c' := by
        intro c'
        cases msg with
        | assistant usage sid =>
            cases usage with
            | some u => unfold cacheStep; cases h : usageCacheSignal u <;> simp [h]
            | none => rfl
        | result subtype cost u sid => rfl
        | systemInit sid => rfl
      cases h : lastCacheRead rest with
      | some v => simp [h]
      | none => simp [h, hstep c]

/-- The issued token is never the (falsy, hence never captured) empty string. -/
theorem issuedSessionToken_ne_empty (msgs : List SDKMessage) :
    ∀ s, issuedSessionToken msgs = some s → s ≠ "" := by
  unfold issuedSessionToken
  have key : ∀ (msgs : List SDKMessage) (acc : Option String),
      (∀ s, acc = some s → s ≠ "") →
      ∀ s, msgs.foldl captureSessionId acc = some s → s ≠ "" := by
    intro msgs
    induction msgs with
    | nil => intro acc hacc; exact hacc
    | cons msg rest ih =>
        intro acc hacc
        rw [List.foldl_cons]
        refine ih (captureSessionId acc msg) ?_
        intro s hs
        unfold captureSessionId at hs
        cases hf : msg.sessionIdField with
        | none => rw [hf] at hs; exact hacc s hs
        | some s' =>
            rw [hf] at hs
            by_cases h' : s' = ""
            · simp [h'] at hs; exact hacc s hs
            · simp [h'] at hs; rw [← hs]; exact h'
  exact key msgs none (by intro s h; cases h)

/-- Reconciliation always bumps the lifetime improvement count by one. -/
theorem reconcileMetadata_improvementCount (ct : ℚ) (f : Bool) (sid : Option String)
    (cost : ℚ) (m : GameMetadata) :
    (reconcileMetadata ct f sid cost m).improvementCount = m.improvementCount + 1 := by
  simp only [reconcileMetadata]
  split <;> first | rfl | (split <;> rfl)

/-- Reconciliation always sets `hasActiveSession`. -/
theorem reconcileMetadata_hasActiveSession (ct : ℚ) (f : Bool) (sid : Option String)
    (cost : ℚ) (m : GameMetadata) :
    (reconcileMetadata ct f sid cost m).hasActiveSession = true := by
  simp only [reconcileMetadata]
  split <;> first | rfl | (split <;> rfl)

/-- Reconciliation always stamps `lastImprovementAt` with the current time. -/
theorem reconcileMetadata_lastImprovementAt (ct : ℚ) (f : Bool) (sid : Option String)
    (cost : ℚ) (m : GameMetadata) :
    (reconcileMetadata ct f sid cost m).lastImprovementAt = some ct := by
  simp only [reconcileMetadata]
  split <;> first | rfl | (split <;> rfl)

/-- Reconciliation always overwrites `lastImprovementCost` with this invocation's cost. -/
theorem reconcileMetadata_lastImprovementCost (ct : ℚ) (f : Bool) (sid : Option String)
    (cost : ℚ) (m : GameMetadata) :
    (reconcileMetadata ct f sid cost m).lastImprovementCost = some cost := by
  simp only [reconcileMetadata]
  split <;> first | rfl | (split <;> rfl)

/-- Reconciliation never touches `contextSize`. -/
theorem reconcileMetadata_contextSize (ct : ℚ) (f : Bool) (sid : Option String)
    (cost : ℚ) (m : GameMetadata) :
    (reconcileMetadata ct f sid cost m).contextSize = m.contextSize := by
  simp only [reconcileMetadata]
  split <;> first | rfl | (split <;> rfl)

/-- The pre-invocation mutation never touches `contextSize`. -/
theorem applyDecisionMutation_contextSize (now : ℚ) (m : GameMetadata) :
    (applyDecisionMutation now m).contextSize = m.contextSize := by
  unfold applyDecisionMutation
  split <;> rfl

/-- The pre-invocation mutation never touches `improvementCount`. -/
theorem applyDecisionMutation_improvementCount (now : ℚ) (m : GameMetadata) :
    (applyDecisionMutation now m).improvementCount = m.improvementCount := by
  unfold applyDecisionMutation
  split <;> rfl

/-- A truthy optional string is in particular present. -/
theorem isPresent_ne_none (o : Option String) (h : isPresent o = true) : o ≠ none := by
  cases o with
  | none => simp [isPresent] at h
  | some s => simp

/-- The stream loop never changes `claudeSessionId` of the in-memory record. -/
theorem streamFinalState_claudeSessionId (now : ℚ) (m : GameMetadata) (msgs : List SDKMessage) :
    (streamFinalState now m msgs).metadata.claudeSessionId
      = (applyDecisionMutation now m).claudeSessionId := by
  unfold streamFinalState
  rw [foldl_processMessage_metadata_eq]
  simp [initialStreamState]

/-- The stream loop never changes `sessionImprovementCount` of the in-memory record. -/
theorem streamFinalState_sessionImprovementCount (now : ℚ) (m : GameMetadata)
    (msgs : List SDKMessage) :
    (streamFinalState now m msgs).metadata.sessionImprovementCount
      = (applyDecisionMutation now m).sessionImprovementCount := by
  unfold streamFinalState
  rw [foldl_processMessage_metadata_eq]
  simp [initialStreamState]

/-- The stream loop never changes `improvementCount` of the in-memory record. -/
theorem streamFinalState_improvementCount (now : ℚ) (m : GameMetadata) (msgs : List SDKMessage) :
    (streamFinalState now m msgs).metadata.improvementCount = m.improvementCount := by
  unfold streamFinalState
  rw [foldl_processMessage_metadata_eq]
  simp [initialStreamState, applyDecisionMutation_improvementCount]

/-- The in-memory context size after the stream is the fold of the cache signals
over the pre-invocation value. -/
theorem streamFinalState_contextSize (now : ℚ) (m : GameMetadata) (msgs : List SDKMessage) :
    (streamFinalState now m msgs).metadata.contextSize
      = msgs.foldl cacheStep m.contextSize := by
  unfold streamFinalState
  rw [foldl_processMessage_contextSize]
  have h : (initialStreamState (applyDecisionMutation now m)).metadata.contextSize
      = m.contextSize := applyDecisionMutation_contextSize now m
  rw [h]

/-- When the session-tracking condition fires, reconciliation sets the session
count to one and adopts the issued token exactly when it is truthy. -/
theorem reconcileMetadata_branch_true (ct : ℚ) (f : Bool) (sid : Option String) (cost : ℚ)
    (m : GameMetadata) (h : (f || !(isPresent m.claudeSessionId)) = true) :
    (reconcileMetadata ct f sid cost m).sessionImprovementCount = some 1
    ∧ (reconcileMetadata ct f sid cost m).claudeSessionId
        = (if isPresent sid then sid else m.claudeSessionId) := by
  simp only [reconcileMetadata]
  rw [if_pos h]
  split <;> simp

/-- When the session-tracking condition does not fire, reconciliation increments
the session count and keeps the token. -/
theorem reconcileMetadata_branch_false (ct : ℚ) (f : Bool) (sid : Option String) (cost : ℚ)
    (m : GameMetadata) (h : (f || !(isPresent m.claudeSessionId)) = false) :
    (reconcileMetadata ct f sid cost m).sessionImprovementCount
        = some (m.sessionImprovementCount.getD 0 + 1)
    ∧ (reconcileMetadata ct f sid cost m).claudeSessionId = m.claudeSessionId := by
  simp only [reconcileMetadata]
  rw [if_neg (by simp [h])]
  simp

/-- The persisted record always carries the incremented lifetime count. -/
theorem reconciledMetadata_improvementCount (now completedAt : ℚ) (m : GameMetadata)
    (msgs : List SDKMessage) :
    (reconciledMetadata now completedAt m msgs).improvementCount = m.improvementCount + 1 := by
  unfold reconciledMetadata
  rw [reconcileMetadata_improvementCount, streamFinalState_improvementCount]

/-- The persisted record always has `hasActiveSession` set. -/
theorem reconciledMetadata_hasActiveSession (now completedAt : ℚ) (m : GameMetadata)
    (msgs : List SDKMessage) :
    (reconciledMetadata now completedAt m msgs).hasActiveSession = true := by
  unfold reconciledMetadata
  rw [reconcileMetadata_hasActiveSession]

/-- The persisted record is stamped with the completion time. -/
theorem reconciledMetadata_lastImprovementAt (now completedAt : ℚ) (m : GameMetadata)
    (msgs : List SDKMessage) :
    (reconciledMetadata now completedAt m msgs).lastImprovementAt = some completedAt := by
  unfold reconciledMetadata
  rw [reconcileMetadata_lastImprovementAt]

/-- The persisted record's cost is overwritten with this invocation's total. -/
theorem reconciledMetadata_lastImprovementCost (now completedAt : ℚ) (m : GameMetadata)
    (msgs : List SDKMessage) :
    (reconciledMetadata now completedAt m msgs).lastImprovementCost
      = some (totalCostReported msgs) := by
  unfold reconciledMetadata
  rw [reconcileMetadata_lastImprovementCost, streamFinalState_totalCostUSD]

/-- C1: the session-policy decision is FRESH exactly when one of the six
conditions holds (no truthy session token; `lastImprovementAt` absent; more
than 5 minutes elapsed; at least 5 session improvements; context above 30000;
last cost above $0.20); with every threshold safely under its limit the
decision is RESUME, and with no session token it is FRESH regardless of the
other fields. -/
theorem c1_fresh_iff_any_condition (now : ℚ) (m : GameMetadata) :
    (shouldReset now m = true ↔
      (isPresent m.claudeSessionId = false
        ∨ m.lastImprovementAt = none
        ∨ (∃ t, m.lastImprovementAt = some t ∧ 5 < (now - t) / 1000 / 60)
        ∨ 5 ≤ m.sessionImprovementCount.getD 0
        ∨ 30000 < m.contextSize.getD 0
        ∨ (0.20 : ℚ) < m.lastImprovementCost.getD 0))
    ∧ (m.claudeSessionId = none → shouldReset now m = true)
    ∧ (∀ t : ℚ, isPresent m.claudeSessionId = true → m.lastImprovementAt = some t →
        (now - t) / 1000 / 60 ≤ 5 → m.sessionImprovementCount.getD 0 < 5 →
        m.contextSize.getD 0 ≤ 30000 → m.lastImprovementCost.getD 0 ≤ (0.20 : ℚ) →
        shouldReset now m = false) := by
  refine ⟨shouldReset_eq_true_iff now m, ?_, ?_⟩
  · intro h
    exact (shouldReset_eq_true_iff now m).mpr (Or.inl (by simp [isPresent, h]))
  · intro t hp hlast h3 h4 h5 h6
    cases hsr : shouldReset now m with
    | false => rfl
    | true =>
        exfalso
        rcases (shouldReset_eq_true_iff now m).mp hsr with h | h | ⟨u, hu, hgt⟩ | h | h | h
        · rw [hp] at h; cases h
        · rw [hlast] at h; cases h
        · rw [hlast] at hu
          injection hu with hu
          subst hu
          linarith
        · omega
        · omega
        · linarith

/-- Witness for C1: a tokenless record decides FRESH, and a record with every
threshold under its limit decides RESUME. -/
theorem c1_fresh_iff_any_condition_witness :
    shouldReset 0 scaffoldExample = true ∧ shouldReset 180000 sampleMeta = false := by
  constructor
  · exact (c1_fresh_iff_any_condition 0 scaffoldExample).2.1 rfl
  · exact (c1_fresh_iff_any_condition 180000 sampleMeta).2.2 0 (by decide) rfl
      (by norm_num) (by decide) (by decide) (by norm_num [sampleMeta])

/-- C6: after an invocation that actually ran, the persisted record always has
`improvementCount` bumped by one, `hasActiveSession` true, `lastImprovementAt`
set to the current time, and `lastImprovementCost` overwritten with the cost
this invocation reported, regardless of the directive. -/
theorem c6_reconciliation_common_fields (now completedAt : ℚ) (m : GameMetadata)
    (msgs : List SDKMessage) :
    (reconciledMetadata now completedAt m msgs).improvementCount = m.improvementCount + 1
    ∧ (reconciledMetadata now completedAt m msgs).hasActiveSession = true
    ∧ (reconciledMetadata now completedAt m msgs).lastImprovementAt = some completedAt
    ∧ (reconciledMetadata now completedAt m msgs).lastImprovementCost
        = some (totalCostReported msgs) :=
  ⟨reconciledMetadata_improvementCount now completedAt m msgs,
    reconciledMetadata_hasActiveSession now completedAt m msgs,
    reconciledMetadata_lastImprovementAt now completedAt m msgs,
    reconciledMetadata_lastImprovementCost now completedAt m msgs⟩

/-- C2: under a FRESH directive reconciliation sets the session count to 1 and
the token to the one the invocation issued (absent when none was issued); under
RESUME it increments the session count and keeps the token unchanged. -/
theorem c2_session_tracking (now completedAt : ℚ) (m : GameMetadata)
    (msgs : List SDKMessage) :
    (shouldReset now m = true →
      (reconciledMetadata now completedAt m msgs).sessionImprovementCount = some 1
      ∧ (reconciledMetadata now completedAt m msgs).claudeSessionId = issuedSessionToken msgs)
    ∧ (shouldReset now m = false →
      (reconciledMetadata now completedAt m msgs).sessionImprovementCount
          = some (m.sessionImprovementCount.getD 0 + 1)
      ∧ (reconciledMetadata now completedAt m msgs).claudeSessionId = m.claudeSessionId) := by
  have hsid := streamFinalState_sessionId now m msgs
  have htok := streamFinalState_claudeSessionId now m msgs
  have hsic := streamFinalState_sessionImprovementCount now m msgs
  constructor
  · intro h
    have hbr := reconcileMetadata_branch_true completedAt (shouldReset now m)
      (streamFinalState now m msgs).sessionId (streamFinalState now m msgs).totalCostUSD
      (streamFinalState now m msgs).metadata (by rw [h]; rfl)
    refine ⟨hbr.1, ?_⟩
    rw [show reconciledMetadata now completedAt m msgs
      = reconcileMetadata completedAt (shouldReset now m) (streamFinalState now m msgs).sessionId
        (streamFinalState now m msgs).totalCostUSD (streamFinalState now m msgs).metadata from rfl]
    rw [hbr.2, hsid, htok]
    cases hI : issuedSessionToken msgs with
    | none => simp [isPresent, applyDecisionMutation, h]
    | some s =>
        have hs : s ≠ "" := issuedSessionToken_ne_empty msgs s hI
        simp [isPresent, hs]
  · intro h
    have hpres : isPresent m.claudeSessionId = true :=
      (shouldReset_eq_false_conditions now m h).1
    have hpres' : isPresent (streamFinalState now m msgs).metadata.claudeSessionId = true := by
      rw [htok]
      simp [applyDecisionMutation, h, hpres]
    have hbr := reconcileMetadata_branch_false completedAt (shouldReset now m)
      (streamFinalState now m msgs).sessionId (streamFinalState now m msgs).totalCostUSD
      (streamFinalState now m msgs).metadata (by rw [h, hpres']; rfl)
    refine ⟨?_, ?_⟩
    · rw [show reconciledMetadata now completedAt m msgs
        = reconcileMetadata completedAt (shouldReset now m) (streamFinalState now m msgs).sessionId
          (streamFinalState now m msgs).totalCostUSD (streamFinalState now m msgs).metadata from rfl]
      rw [hbr.1, hsic]
      simp [applyDecisionMutation, h]
    · rw [show reconciledMetadata now completedAt m msgs
        = reconcileMetadata completedAt (shouldReset now m) (streamFinalState now m msgs).sessionId
          (streamFinalState now m msgs).totalCostUSD (streamFinalState now m msgs).metadata from rfl]
      rw [hbr.2, htok]
      simp [applyDecisionMutation, h]

/-- Witness for C2: resuming on a healthy record increments the session count
from 2 to 3 and keeps the token. -/
theorem c2_session_tracking_witness :
    (reconciledMetadata 180000 180000 sampleMeta []).sessionImprovementCount = some 3
    ∧ (reconciledMetadata 180000 180000 sampleMeta []).claudeSessionId = some "sess-abc" := by
  have hres : shouldReset 180000 sampleMeta = false := by
    norm_num [shouldReset, sampleMeta, timeSinceLastImprovement, exceedsFiveMinutes, isPresent,
      show ¬("sess-abc" = "") from by decide]
  have h := (c2_session_tracking 180000 180000 sampleMeta []).2 hres
  exact ⟨h.1.trans (by decide), h.2.trans rfl⟩

/-- C9: the persisted `contextSize` is the value of the last streamed
cache-read signal when one was emitted, and is left at its previous value when
none was. -/
theorem c9_context_size_last_signal (now completedAt : ℚ) (m : GameMetadata)
    (msgs : List SDKMessage) :
    (∀ v, lastCacheRead msgs = some v →
      (reconciledMetadata now completedAt m msgs).contextSize = some v)
    ∧ (lastCacheRead msgs = none →
      (reconciledMetadata now completedAt m msgs).contextSize = m.contextSize) := by
  have hctx : (reconciledMetadata now completedAt m msgs).contextSize
      = match lastCacheRead msgs with
        | some v => some v
        | none => m.contextSize := by
    rw [show (reconciledMetadata now completedAt m msgs).contextSize
      = (reconcileMetadata completedAt (shouldReset now m) (streamFinalState now m msgs).sessionId
        (streamFinalState now m msgs).totalCostUSD (streamFinalState now m msgs).metadata).contextSize
      from rfl]
    rw [reconcileMetadata_contextSize, streamFinalState_contextSize, foldl_cacheStep_from]
  constructor
  · intro v hv
    rw [hctx, hv]
  · intro hv
    rw [hctx, hv]

/-- Witness for C9: a stream whose only assistant step reads 7 cached tokens
sets `contextSize` to 7, and an empty stream leaves it at 5000. -/
theorem c9_context_size_last_signal_witness :
    (reconciledMetadata 0 0 sampleMeta
        [SDKMessage.assistant (some ⟨10, 5, none, some 7⟩) none]).contextSize = some 7
    ∧ (reconciledMetadata 0 0 sampleMeta []).contextSize = some 5000 := by
  constructor
  · exact (c9_context_size_last_signal 0 0 sampleMeta
      [SDKMessage.assistant (some ⟨10, 5, none, some 7⟩) none]).1 7 (by decide)
  · exact ((c9_context_size_last_signal 0 0 sampleMeta []).2 (by decide)).trans rfl

/-- C3: when the agent invocation throws at any point in the stream, the
request returns `success: false` and no metadata write occurs, so the persisted
record is exactly the pre-call one. -/
theorem c3_adapter_failure_no_write (now completedAt : ℚ) (m : GameMetadata)
    (msgs : List SDKMessage) (err : String) (tsc : TscOutcome) :
    resultOf (improveGameTrace now completedAt m (.throwsAfter msgs err) tsc)
        = some { success := false, message := failureMessage err }
    ∧ diskAfter m (improveGameTrace now completedAt m (.throwsAfter msgs err) tsc) = m
    ∧ ∀ m' : GameMetadata,
        TraceStep.writeMetadata m' ∉ improveGameTrace now completedAt m (.throwsAfter msgs err) tsc := by
  refine ⟨rfl, rfl, ?_⟩
  intro m'
  simp [improveGameTrace]

/-- Witness for C3: a throw before the first event on a healthy record. -/
theorem c3_adapter_failure_no_write_witness :
    resultOf (improveGameTrace 0 0 sampleMeta (.throwsAfter [] "stream error") (.passes "" ""))
        = some { success := false, message := failureMessage "stream error" }
    ∧ diskAfter sampleMeta
        (improveGameTrace 0 0 sampleMeta (.throwsAfter [] "stream error") (.passes "" "")) = sampleMeta :=
  ⟨(c3_adapter_failure_no_write 0 0 sampleMeta [] "stream error" (.passes "" "")).1,
    (c3_adapter_failure_no_write 0 0 sampleMeta [] "stream error" (.passes "" "")).2.1⟩

/-- C5: a hard error of the post-edit TypeScript check still yields
`success: true` with a message flagging the TypeScript errors, and the
reconciled metadata (incremented count, overwritten cost) was already written
before the check ran. -/
theorem c5_tsc_error_is_warning (now completedAt : ℚ) (m : GameMetadata)
    (msgs : List SDKMessage) (errorOutput : String) :
    resultOf (improveGameTrace now completedAt m (.completes msgs) (.fails errorOutput))
        = some { success := true,
                 message := tscErrorMessage (reconciledMetadata now completedAt m msgs) }
    ∧ (∃ pre post, tscErrorMessage (reconciledMetadata now completedAt m msgs)
          = pre ++ "TypeScript errors" ++ post)
    ∧ diskAfter m (improveGameTrace now completedAt m (.completes msgs) (.fails errorOutput))
        = reconciledMetadata now completedAt m msgs
    ∧ (improveGameTrace now completedAt m (.completes msgs) (.fails errorOutput))[1]?
        = some (.writeMetadata (reconciledMetadata now completedAt m msgs))
    ∧ (improveGameTrace now completedAt m (.completes msgs) (.fails errorOutput))[2]?
        = some .runTscCheck
    ∧ (reconciledMetadata now completedAt m msgs).improvementCount = m.improvementCount + 1
    ∧ (reconciledMetadata now completedAt m msgs).lastImprovementCost
        = some (totalCostReported msgs) := by
  refine ⟨rfl, ?_, rfl, rfl, rfl,
    reconciledMetadata_improvementCount now completedAt m msgs,
    reconciledMetadata_lastImprovementCost now completedAt m msgs⟩
  refine ⟨"Improvement applied to " ++ (reconciledMetadata now completedAt m msgs).name
      ++ " but with ",
    ". The game may not work correctly until these are fixed.", ?_⟩
  unfold tscErrorMessage
  conv_rhs => rw [String.append_assoc, String.append_assoc]
  congr 1

/-- C7: the pre-invocation mutation is the metadata state in effect when the
agent is invoked (the first trace step): a FRESH decision has already cleared
the token and zeroed the session count, a RESUME decision leaves the record
untouched. -/
theorem c7_fresh_clears_before_invocation (now completedAt : ℚ) (m : GameMetadata)
    (inv : InvocationOutcome) (tsc : TscOutcome) :
    (improveGameTrace now completedAt m inv tsc).head?
        = some (.invokeAgent (applyDecisionMutation now m))
    ∧ (shouldReset now m = true →
        (applyDecisionMutation now m).claudeSessionId = none
        ∧ (applyDecisionMutation now m).sessionImprovementCount = some 0)
    ∧ (shouldReset now m = false → applyDecisionMutation now m = m) := by
  refine ⟨?_, ?_, ?_⟩
  · cases inv with
    | throwsAfter msgs err => rfl
    | completes msgs => cases tsc <;> rfl
  · intro h
    constructor <;> simp [applyDecisionMutation, h]
  · intro h
    simp [applyDecisionMutation, h]

/-- Witness for C7: a tokenless record is FRESH, so the invocation sees a
cleared token and a zero session count. -/
theorem c7_fresh_clears_before_invocation_witness :
    (applyDecisionMutation 0 scaffoldExample).claudeSessionId = none
    ∧ (applyDecisionMutation 0 scaffoldExample).sessionImprovementCount = some 0 :=
  (c7_fresh_clears_before_invocation 0 0 scaffoldExample (.completes []) (.passes "" "")).2.1 rfl

/-- C10: absent `contextSize`, `sessionImprovementCount` and
`lastImprovementCost` are read as 0, so none of their FRESH conditions can
fire, and the decision reduces to the token and timestamp conditions. -/
theorem c10_absent_fields_read_as_zero (now : ℚ) (m : GameMetadata)
    (h1 : m.contextSize = none) (h2 : m.sessionImprovementCount = none)
    (h3 : m.lastImprovementCost = none) :
    m.contextSize.getD 0 = 0 ∧ m.sessionImprovementCount.getD 0 = 0
    ∧ m.lastImprovementCost.getD 0 = 0
    ∧ ¬(30000 < m.contextSize.getD 0)
    ∧ ¬(5 ≤ m.sessionImprovementCount.getD 0)
    ∧ ¬((0.20 : ℚ) < m.lastImprovementCost.getD 0)
    ∧ (shouldReset now m = true ↔
        (isPresent m.claudeSessionId = false ∨ m.lastImprovementAt = none
          ∨ ∃ t, m.lastImprovementAt = some t ∧ 5 < (now - t) / 1000 / 60)) := by
  refine ⟨by rw [h1]; rfl, by rw [h2]; rfl, by rw [h3]; rfl,
    by rw [h1]; norm_num, by rw [h2]; norm_num, by rw [h3]; norm_num, ?_⟩
  rw [shouldReset_eq_true_iff, h1, h2, h3]
  norm_num

/-- Witness for C10: the freshly scaffolded record omits all three fields and
its decision is governed by the token/timestamp conditions alone. -/
theorem c10_absent_fields_read_as_zero_witness :
    ¬(30000 < scaffoldExample.contextSize.getD 0)
    ∧ ¬(5 ≤ scaffoldExample.sessionImprovementCount.getD 0)
    ∧ ¬((0.20 : ℚ) < scaffoldExample.lastImprovementCost.getD 0) :=
  ⟨(c10_absent_fields_read_as_zero 0 scaffoldExample rfl rfl rfl).2.2.2.1,
    (c10_absent_fields_read_as_zero 0 scaffoldExample rfl rfl rfl).2.2.2.2.1,
    (c10_absent_fields_read_as_zero 0 scaffoldExample rfl rfl rfl).2.2.2.2.2.1⟩

/-- Counterexample to C4: one completed FRESH improvement of a freshly
scaffolded game in which the invocation issued no session token reaches a
persisted record with `claudeSessionId` absent but `sessionImprovementCount`
equal to 1, not 0. -/
theorem c4_counterexample_token_absent_count_one :
    ReachableMetadata tokenlessImprovedMeta
    ∧ tokenlessImprovedMeta.claudeSessionId = none
    ∧ tokenlessImprovedMeta.sessionImprovementCount = some 1
    ∧ ¬(tokenlessImprovedMeta.sessionImprovementCount = some 0) := by
  have htok : tokenlessImprovedMeta.claudeSessionId = none := by
    norm_num [tokenlessImprovedMeta, diskAfter, improveGameTrace, reconciledMetadata,
      streamFinalState, initialStreamState, reconcileMetadata, applyDecisionMutation, shouldReset,
      scaffoldExample, scaffoldMetadata, isPresent, timeSinceLastImprovement]
  have hsic : tokenlessImprovedMeta.sessionImprovementCount = some 1 := by
    norm_num [tokenlessImprovedMeta, diskAfter, improveGameTrace, reconciledMetadata,
      streamFinalState, initialStreamState, reconcileMetadata, applyDecisionMutation, shouldReset,
      scaffoldExample, scaffoldMetadata, isPresent, timeSinceLastImprovement]
  refine ⟨?_, htok, hsic, by rw [hsic]; simp⟩
  exact ReachableMetadata.improve scaffoldExample 0 0 (.completes []) (.passes "" "")
    (ReachableMetadata.scaffold "game_1" "Arena" "make an arena game" "2025-08-13T00:00:00Z" none)

/-- C4 (amended): in every reachable record with `claudeSessionId` absent,
`sessionImprovementCount` is at most 1 (it is 1 exactly after a completed FRESH
improvement whose invocation issued no session token, 0 otherwise). -/
theorem c4_amended_token_absent_count_le_one (m : GameMetadata) (hr : ReachableMetadata m)
    (htok : m.claudeSessionId = none) : m.sessionImprovementCount.getD 0 ≤ 1 := by
  revert htok
  induction hr with
  | scaffold gid gname p c sid =>
      intro _
      simp [scaffoldMetadata]
  | improve m' now ct inv tsc hm ih =>
      intro htok
      cases inv with
      | throwsAfter msgs err => exact ih htok
      | completes msgs =>
          have hd : diskAfter m' (improveGameTrace now ct m' (.completes msgs) tsc)
              = reconciledMetadata now ct m' msgs := by cases tsc <;> rfl
          rw [hd] at htok ⊢
          cases hc : ((shouldReset now m')
              || !(isPresent (streamFinalState now m' msgs).metadata.claudeSessionId)) with
          | true =>
              have hbr := reconcileMetadata_branch_true ct (shouldReset now m')
                (streamFinalState now m' msgs).sessionId
                (streamFinalState now m' msgs).totalCostUSD
                (streamFinalState now m' msgs).metadata hc
              have h1 : (reconciledMetadata now ct m' msgs).sessionImprovementCount = some 1 :=
                hbr.1
              rw [h1]
              simp
          | false =>
              have hbr := reconcileMetadata_branch_false ct (shouldReset now m')
                (streamFinalState now m' msgs).sessionId
                (streamFinalState now m' msgs).totalCostUSD
                (streamFinalState now m' msgs).metadata hc
              have hp : isPresent (streamFinalState now m' msgs).metadata.claudeSessionId
                  = true := by
                rcases Bool.or_eq_false_iff.mp hc with ⟨h1, h2⟩
                simpa using h2
              have h2 : (reconciledMetadata now ct m' msgs).claudeSessionId
                  = (streamFinalState now m' msgs).metadata.claudeSessionId := hbr.2
              rw [h2] at htok
              exact absurd htok (isPresent_ne_none _ hp)

/-- Witness for the amended C4 at the scaffolded record. -/
theorem c4_amended_token_absent_count_le_one_witness :
    (scaffoldMetadata "game_1" "Arena" "make an arena game" "2025-08-13T00:00:00Z"
        none).sessionImprovementCount.getD 0 ≤ 1 :=
  c4_amended_token_absent_count_le_one _
    (ReachableMetadata.scaffold "game_1" "Arena" "make an arena game" "2025-08-13T00:00:00Z" none)
    rfl

/-- Counterexample to C8: a record whose only true condition is the first one
(no session token) — timestamp present and recent, every numeric signal under
its threshold — decides FRESH, yet no reason at all is reported, because the
reason chain has no branch for the missing-token condition. -/
theorem c8_counterexample_fresh_without_reason :
    shouldReset 60000 tokenlessRecentMeta = true
    ∧ tokenlessRecentMeta.claudeSessionId = none
    ∧ tokenlessRecentMeta.lastImprovementAt = some 0
    ∧ (60000 - 0 : ℚ) / 1000 / 60 ≤ 5
    ∧ tokenlessRecentMeta.sessionImprovementCount.getD 0 < 5
    ∧ tokenlessRecentMeta.contextSize.getD 0 ≤ 30000
    ∧ tokenlessRecentMeta.lastImprovementCost.getD 0 ≤ (0.20 : ℚ)
    ∧ resetReason 60000 tokenlessRecentMeta = none := by
  refine ⟨?_, rfl, rfl, by norm_num, by decide, by decide, ?_, ?_⟩
  · norm_num [shouldReset, tokenlessRecentMeta, isPresent]
  · norm_num [tokenlessRecentMeta]
  · norm_num [resetReason, shouldReset, tokenlessRecentMeta, isPresent, timeSinceLastImprovement,
      exceedsFiveMinutes]

/-- C8 (amended): when the decision is FRESH, the reported reason is the first
true condition among conditions 2–6 (absent timestamp; more than 5 minutes
elapsed; session count at least 5; context above 30000; cost above $0.20); when
FRESH is forced solely by the missing session token, no reason is reported.
The reason reported for an absent timestamp is the log line "First improvement
or no previous timestamp" (Scenario A). -/
theorem c8_amended_reason_is_first_of_conditions_two_to_six (now : ℚ) (m : GameMetadata)
    (h : shouldReset now m = true) :
    (m.lastImprovementAt = none → resetReason now m = some .firstImprovement)
    ∧ (∀ t, m.lastImprovementAt = some t → 5 < (now - t) / 1000 / 60 →
        resetReason now m = some .cacheExpired)
    ∧ (∀ t, m.lastImprovementAt = some t → (now - t) / 1000 / 60 ≤ 5 →
        5 ≤ m.sessionImprovementCount.getD 0 →
        resetReason now m = some .sessionImprovementsReached)
    ∧ (∀ t, m.lastImprovementAt = some t → (now - t) / 1000 / 60 ≤ 5 →
        m.sessionImprovementCount.getD 0 < 5 → 30000 < m.contextSize.getD 0 →
        resetReason now m = some .contextTooLarge)
    ∧ (∀ t, m.lastImprovementAt = some t → (now - t) / 1000 / 60 ≤ 5 →
        m.sessionImprovementCount.getD 0 < 5 → m.contextSize.getD 0 ≤ 30000 →
        (0.20 : ℚ) < m.lastImprovementCost.getD 0 →
        resetReason now m = some .costTooHigh)
    ∧ (∀ t, m.lastImprovementAt = some t → (now - t) / 1000 / 60 ≤ 5 →
        m.sessionImprovementCount.getD 0 < 5 → m.contextSize.getD 0 ≤ 30000 →
        m.lastImprovementCost.getD 0 ≤ (0.20 : ℚ) →
        resetReason now m = none)
    ∧ reasonLogText .firstImprovement = "First improvement or no previous timestamp" := by
  refine ⟨?_, ?_, ?_, ?_, ?_, ?_, rfl⟩
  · intro ht
    simp [resetReason, h, timeSinceLastImprovement, ht]
  · intro t ht h2
    simp [resetReason, h, timeSinceLastImprovement, ht, exceedsFiveMinutes, h2]
  · intro t ht h2 h3
    simp [resetReason, h, timeSinceLastImprovement, ht, exceedsFiveMinutes, not_lt.mpr h2, h3]
  · intro t ht h2 h3 h4
    simp [resetReason, h, timeSinceLastImprovement, ht, exceedsFiveMinutes, not_lt.mpr h2,
      not_le.mpr h3, h4]
  · intro t ht h2 h3 h4 h5
    simp [resetReason, h, timeSinceLastImprovement, ht, exceedsFiveMinutes, not_lt.mpr h2,
      not_le.mpr h3, not_lt.mpr h4, h5]
  · intro t ht h2 h3 h4 h5
    simp [resetReason, h, timeSinceLastImprovement, ht, exceedsFiveMinutes, not_lt.mpr h2,
      not_le.mpr h3, not_lt.mpr h4, not_lt.mpr h5]

/-- Witness for the amended C8: Scenario A (no token, no timestamp) reports the
first-improvement reason. -/
theorem c8_amended_reason_witness :
    resetReason 0 scaffoldExample = some ResetReason.firstImprovement := by
  have h : shouldReset 0 scaffoldExample = true := by
    norm_num [shouldReset, scaffoldExample, scaffoldMetadata, isPresent, timeSinceLastImprovement]
  exact (c8_amended_reason_is_first_of_conditions_two_to_six 0 scaffoldExample h).1 rfl
